import Mathlib

/-!
Verification of the OTRS metrics-exporter collection pipeline
(`otrs/collector.py`) against its natural-language specification.

The Python source is shallowly embedded: each parser / normalizer /
cache step becomes an executable Lean function on `String` / `List`
data, Python `float` arithmetic is modelled exactly over `ℚ`, Python
exceptions are modelled with `Option` / `Except` (`none` / `.error`
standing for an uncaught exception), and the process-wide mutable
state of `OtrsConnector` is modelled by explicit state-passing step
functions.
-/

namespace OtrsExporter

/-! ## Basic string machinery (Python `in`, `str.count`, `str.split`) -/

/-- Check whether `p` is an initial segment of `s` (character lists). -/
def leadsWith : List Char → List Char → Bool
  | [], _ => true
  | _ :: _, [] => false
  | p :: ps, c :: cs => p == c && leadsWith ps cs

/-- Fuel-driven worker for `strCount`: Python `str.count`, counting
non-overlapping occurrences scanning left to right. -/
def countOccFuel (pat : List Char) : Nat → List Char → Nat
  | 0, _ => 0
  | _ + 1, [] => 0
  | fuel + 1, c :: cs =>
    if leadsWith pat (c :: cs) then 1 + countOccFuel pat fuel (cs.drop (pat.length - 1))
    else countOccFuel pat fuel cs

/-- Python `s.count(pat)` for a nonempty literal `pat`. -/
def strCount (s pat : String) : Nat :=
  countOccFuel pat.data s.data.length s.data

/-- Substring test on character lists (Python `pat in s`). -/
def containsSub (pat : List Char) : List Char → Bool
  | [] => leadsWith pat []
  | c :: cs => leadsWith pat (c :: cs) || containsSub pat cs

/-- Python `pat in s` for strings. -/
def strContains (s pat : String) : Bool :=
  containsSub pat.data s.data

/-- Python `s.split(" ")` (explicit single-space separator: empty
pieces are kept, the empty string splits to one empty piece). -/
def splitOnSpace : List Char → List (List Char)
  | [] => [[]]
  | ' ' :: r => [] :: splitOnSpace r
  | c :: r =>
    match splitOnSpace r with
    | h :: t => (c :: h) :: t
    | [] => [[c]]

/-- Python `s.split(" ")` on strings. -/
def strSplitSpace (s : String) : List String :=
  (splitOnSpace s.data).map String.mk

/-! ## Output parsers that are plain substring checks
(`is_config_valid`, `get_db_status`, `get_elastic_status`,
`get_mail_queue_empty`).  Each source function first captures the CLI
output; the embedding takes that captured text as the argument. -/

/-- `is_config_valid` from `collector.py`: 1 iff the output contains
the exact phrase. -/
def is_config_valid (otrs_cli_out : String) : Nat :=
  if strContains otrs_cli_out "All settings are valid." then 1 else 0

/-- `get_db_status` from `collector.py`. -/
def get_db_status (otrs_cli_out : String) : Nat :=
  if strContains otrs_cli_out "Connection successful." then 1 else 0

/-- `get_elastic_status` from `collector.py`. -/
def get_elastic_status (otrs_cli_out : String) : Nat :=
  if strContains otrs_cli_out "Connection successful." then 1 else 0

/-- `get_mail_queue_empty` from `collector.py`. -/
def get_mail_queue_empty (otrs_cli_out : String) : Nat :=
  if strContains otrs_cli_out "Mail queue is empty." then 1 else 0

/-! ## Daemon job success rate (`get_job_success_rate`)

The source computes `daemon_success / daemon_total` with no guard, so
a zero denominator raises `ZeroDivisionError`; the embedding returns
`none` exactly in that case and the exact rational otherwise. -/

/-- `get_job_success_rate` from `collector.py` on the captured daemon
summary text; `none` models the uncaught `ZeroDivisionError`. -/
def get_job_success_rate (otrs_cli_out : String) : Option ℚ :=
  let daemon_success := strCount otrs_cli_out "Success"
  let daemon_total := daemon_success + strCount otrs_cli_out "Fail"
  if daemon_total = 0 then none
  else some ((daemon_success : ℚ) / (daemon_total : ℚ))

/-! ## External process invoker (`call_otrs_cli`)

`subprocess.run(...).stdout.decode("utf-8")` with no try/except: a
spawn failure (`FileNotFoundError`) and a UTF-8 decode failure both
raise; a completed process returns its captured stdout verbatim and
its exit code is never inspected. -/

/-- Outcome of attempting to spawn the external console process:
either the spawn itself failed, or the process completed with some
exit code and raw stdout (`some s` when the bytes are valid UTF-8
decoding to `s`, `none` when they are not decodable). -/
inductive ProcOutcome where
  | spawnFailure
  | completed (exitCode : Int) (stdout : Option String)

/-- Exceptions `call_otrs_cli` can propagate. -/
inductive CliError where
  | spawnError
  | decodeError
deriving DecidableEq

/-- `call_otrs_cli` from `collector.py`: no exception handling, so
failures propagate as `.error`; on completion the decoded stdout is
returned verbatim regardless of the exit code. -/
def call_otrs_cli : ProcOutcome → Except CliError String
  | .spawnFailure => .error .spawnError
  | .completed _ none => .error .decodeError
  | .completed _ (some s) => .ok s

/-! ## Cron table parsing (`get_failing_crons`, `get_successful_crons`)

The source runs `re.findall` with pattern
`^\s*\|\s*([A-Za-z0-9]+)\s*\|\s*[\s\d:\-]*\|\s*Fail` in MULTILINE
mode (resp. `Success`).  Every adjacent pair of pattern pieces is over
disjoint character sets, so the regex is deterministic: the embedding
implements the scan directly — at each line-start position the greedy
match is attempted; on success the captured name is recorded and
scanning resumes after the match, otherwise at the next character. -/

/-- Python `\s` on ASCII text. -/
def isWsChar (c : Char) : Bool :=
  c == ' ' || c == '\t' || c == '\n' || c == '\r' || c == '\x0b' || c == '\x0c'

/-- Character class `[A-Za-z0-9]`. -/
def isNameChar (c : Char) : Bool :=
  (decide ('A' ≤ c) && decide (c ≤ 'Z')) ||
  (decide ('a' ≤ c) && decide (c ≤ 'z')) ||
  (decide ('0' ≤ c) && decide (c ≤ '9'))

/-- Character class `[\s\d:\-]` (the time column of the cron table). -/
def isTimeChar (c : Char) : Bool :=
  isWsChar c || (decide ('0' ≤ c) && decide (c ≤ '9')) || c == ':' || c == '-'

/-- Match the cron-row pattern at one position: `\s*\|\s*` then the
captured `[A-Za-z0-9]+` name, then `\s*\|`, then `\s*[\s\d:\-]*\|`
(the `\s*` is absorbed into the class, a superset), then `\s*` and
the literal status word.  Returns the capture and the rest of the
input after the match. -/
def matchCronRow (statusWord : List Char) (s : List Char) : Option (List Char × List Char) :=
  match s.dropWhile isWsChar with
  | '|' :: s2 =>
    let s3 := s2.dropWhile isWsChar
    let name := s3.takeWhile isNameChar
    if name.isEmpty then none else
    match (s3.dropWhile isNameChar).dropWhile isWsChar with
    | '|' :: s6 =>
      match s6.dropWhile isTimeChar with
      | '|' :: s8 =>
        let s9 := s8.dropWhile isWsChar
        if leadsWith statusWord s9 then some (name, s9.drop statusWord.length) else none
      | _ => none
    | _ => none
  | _ => none

/-- `re.findall` scan for the cron-row pattern: try the pattern at
every line start (position 0 or right after a newline), resuming
after each successful match.  Fuel bounds the scan length; every step
consumes at least one character so `length + 1` fuel is enough. -/
def scanCronRows (statusWord : List Char) : Nat → List Char → Bool → List (List Char)
  | 0, _, _ => []
  | _ + 1, [], _ => []
  | fuel + 1, c :: cs, atLineStart =>
    match (if atLineStart then matchCronRow statusWord (c :: cs) else none) with
    | some (name, rest) => name :: scanCronRows statusWord fuel rest false
    | none => scanCronRows statusWord fuel cs (c == '\n')

/-- Insert into a Python `dict` modelled as an insertion-ordered
association list: an existing key keeps its position and gets the new
value, a new key is appended. -/
def pyDictInsert {α : Type} (d : List (String × α)) (k : String) (v : α) : List (String × α) :=
  if d.any (fun p => p.1 == k) then d.map (fun p => if p.1 == k then (k, v) else p)
  else d ++ [(k, v)]

/-- Python `dict(...)` / dict comprehension over a pair sequence. -/
def pyDictOf {α : Type} (ps : List (String × α)) : List (String × α) :=
  ps.foldl (fun d p => pyDictInsert d p.1 p.2) []

/-- Python `d.update(ps)`. -/
def pyDictUpdate {α : Type} (d ps : List (String × α)) : List (String × α) :=
  ps.foldl (fun d p => pyDictInsert d p.1 p.2) d

/-- `get_failing_crons` from `collector.py` on the captured daemon
summary text: the dict comprehension maps every captured job name to
the string `"0"`. -/
def get_failing_crons (otrs_cli_out : String) : List (String × String) :=
  pyDictOf ((scanCronRows "Fail".data (otrs_cli_out.data.length + 1) otrs_cli_out.data true).map
    (fun n => (String.mk n, "0")))

/-- `get_successful_crons` from `collector.py`: every captured job
name maps to `"1"`. -/
def get_successful_crons (otrs_cli_out : String) : List (String × String) :=
  pyDictOf ((scanCronRows "Success".data (otrs_cli_out.data.length + 1) otrs_cli_out.data true).map
    (fun n => (String.mk n, "1")))

/-! ## Overall search-node status (`get_elastic_overall_nodes_status`)

The source extracts the per-node status strings and forms
`set(states)`; the embedding takes the extracted status list and
models the set by order-preserving de-duplication. -/

/-- Add an element to a duplicate-free list if not present. -/
def setInsert (x : String) (l : List String) : List String :=
  if l.contains x then l else l ++ [x]

/-- Model of Python `set(...)` built from a list: the distinct
elements, first occurrence order. -/
def listToSet (l : List String) : List String :=
  l.foldl (fun acc x => setInsert x acc) []

/-- `get_elastic_overall_nodes_status` from `collector.py`, applied to
the list of extracted per-node status strings (the regex captures):
0 when no node reports the literal "On-line", 0.5 when "On-line" is
present but more than one distinct status occurs, 1 otherwise. -/
def get_elastic_overall_nodes_status (states : List String) : ℚ :=
  let uniqueStatus := listToSet states
  if ¬ uniqueStatus.contains "On-line" then 0
  else if 1 < uniqueStatus.length then 1 / 2
  else 1

/-! ## Time-windowed cache (`_metric_db_status_ok`,
`_metric_db_additional_stats`) and the mail-error running count
(`_metric_mail_error_count`)

Timestamps are seconds (`Nat`).  Python `timedelta.seconds` is the
seconds component after the days are split off, i.e. the elapsed
seconds modulo 86400 — not the total elapsed seconds. -/

/-- Python `(now - then).seconds` for `then ≤ now`, whole seconds:
the days component is discarded. -/
def tdSeconds (elapsedSeconds : Nat) : Nat := elapsedSeconds % 86400

/-- The mutable cache pair of one expensive check: the timestamp of
the last performed check and the cached result. -/
structure CachedCheck (α : Type) where
  lastCheckedAt : Nat
  cache : α
deriving DecidableEq

/-- One scrape step of a cached expensive check (the shared shape of
`_metric_db_status_ok` and `_metric_db_additional_stats`): if
`delta.seconds > 900` the check is re-run (`fresh` is the value the
underlying check would produce now) and the cache refreshed;
otherwise the cached value is served.  Returns the new state and the
emitted value. -/
def cachedCheckStep {α : Type} (now : Nat) (fresh : α) (st : CachedCheck α) :
    CachedCheck α × α :=
  if tdSeconds (now - st.lastCheckedAt) > 900 then
    ({ lastCheckedAt := now, cache := fresh }, fresh)
  else (st, st.cache)

/-- The cache step of `_metric_db_status_ok` (cached value is the
0/1 connection status). -/
def metric_db_status_ok_step (now : Nat) (fresh : Int) (st : CachedCheck Int) :
    CachedCheck Int × Int :=
  cachedCheckStep now fresh st

/-- The cache step of `_metric_db_additional_stats` (cached value is
the stats dict from `get_additional_db_stats`). -/
def metric_db_additional_stats_cache_step (now : Nat)
    (fresh : List (String × String)) (st : CachedCheck (List (String × String))) :
    CachedCheck (List (String × String)) × List (String × String) :=
  cachedCheckStep now fresh st

/-- The mutable state of `_metric_mail_error_count`: timestamp of the
last scrape that saw a new mail error, and the reported error count. -/
structure MailErrorState where
  lastMailErrorOccurredAt : Nat
  mailFetcherErrors : Nat
deriving DecidableEq

/-- One scrape step of `_metric_mail_error_count`: `newErrors` is the
number of newly matched error lines from this poll
(`get_mail_fetcher_errors()`).  If fewer than 900 seconds
(`delta.seconds`, i.e. modulo one day) have passed since the last
error, the running total is incremented, otherwise it is replaced by
the new count; the last-error timestamp advances only when new errors
were seen.  Returns the new state and the emitted metric value. -/
def metric_mail_error_count_step (now newErrors : Nat) (st : MailErrorState) :
    MailErrorState × Nat :=
  let errs :=
    if tdSeconds (now - st.lastMailErrorOccurredAt) < 900
    then st.mailFetcherErrors + newErrors else newErrors
  let lastAt := if newErrors > 0 then now else st.lastMailErrorOccurredAt
  (⟨lastAt, errs⟩, errs)

/-! ## Python `float()` and the stats normalizer
(`prepare_additional_stats_dict`)

The list cells mutated by the normalizer hold either the original
string tokens or a converted number, so a cell is a tagged value; the
converted Python float is modelled exactly over `ℚ` (every value the
normalizer actually produces is a small integer times a power of two,
representable exactly by the source's doubles). -/

/-- A cell of one stats value list: originally a string token,
possibly overwritten with a converted number. -/
inductive Tok where
  | s (v : String)
  | f (v : ℚ)
deriving DecidableEq

/-- Decimal digit accumulator. -/
def digitsVal (l : List Char) : Nat :=
  l.foldl (fun a c => a * 10 + (c.toNat - 48)) 0

/-- The syntactic decomposition of a finite-decimal Python float
literal: sign, integer digits, fraction digits, exponent sign and
exponent digits (empty when absent). -/
structure FloatParts where
  negative : Bool
  intPart : List Char
  fracPart : List Char
  expNeg : Bool
  expDigits : List Char
deriving DecidableEq

/-- Parse the exponent suffix after the `e`/`E` marker. -/
def parseExpTail (r : List Char) : Option (Bool × List Char) :=
  let signAndRest : Bool × List Char :=
    match r with
    | '-' :: q => (true, q)
    | '+' :: q => (false, q)
    | q => (false, q)
  let ed := signAndRest.2.takeWhile Char.isDigit
  if ed.isEmpty then none else
  if (signAndRest.2.dropWhile Char.isDigit).isEmpty then some (signAndRest.1, ed) else none

/-- Syntactic stage of Python `float(str)` restricted to finite
decimals: optional surrounding whitespace, optional sign, digits with
optional fraction and optional exponent; `none` models
`ValueError`. -/
def parseFloatParts (str : String) : Option FloatParts :=
  let t := (str.data.dropWhile isWsChar).reverse.dropWhile isWsChar |>.reverse
  let signAndRest : Bool × List Char :=
    match t with
    | '-' :: r => (true, r)
    | '+' :: r => (false, r)
    | r => (false, r)
  let t1 := signAndRest.2
  let intPart := t1.takeWhile Char.isDigit
  let r1 := t1.dropWhile Char.isDigit
  let fracAndRest : List Char × List Char :=
    match r1 with
    | '.' :: r => (r.takeWhile Char.isDigit, r.dropWhile Char.isDigit)
    | r => ([], r)
  if intPart.isEmpty && fracAndRest.1.isEmpty then none else
  match fracAndRest.2 with
  | [] => some ⟨signAndRest.1, intPart, fracAndRest.1, false, []⟩
  | 'e' :: r =>
    (parseExpTail r).map (fun st => ⟨signAndRest.1, intPart, fracAndRest.1, st.1, st.2⟩)
  | 'E' :: r =>
    (parseExpTail r).map (fun st => ⟨signAndRest.1, intPart, fracAndRest.1, st.1, st.2⟩)
  | _ => none

/-- Numeric stage of Python `float(str)`: the exact rational value of
the decomposed literal. -/
def ratOfParts (p : FloatParts) : ℚ :=
  (if p.negative then -1 else 1) *
    ((digitsVal p.intPart : ℚ) + (digitsVal p.fracPart : ℚ) / 10 ^ p.fracPart.length) *
    10 ^ ((if p.expNeg then (-1 : Int) else 1) * (digitsVal p.expDigits : Int))

/-- Python `float(str)` restricted to finite decimals, exactly over
`ℚ`; `none` models `ValueError`. -/
def parsePyFloat (str : String) : Option ℚ :=
  (parseFloatParts str).map ratOfParts

/-- Python `float(cell)` on a value-list cell: a float passes
through, a string is parsed (`none` models `ValueError`). -/
def tokFloat : Tok → Option ℚ
  | .f q => some q
  | .s str => parsePyFloat str

/-- Outcome of the `try` block of `prepare_additional_stats_dict`:
either the updated list, a caught `ValueError`, or an uncaught
exception (`IndexError` on `value[1]`). -/
inductive PrepTryResult where
  | ok (v : List Tok)
  | valueError
  | indexError

/-- The `try` block of `prepare_additional_stats_dict` applied to one
value list (after the first `del value[-2]`): reads `value[1]`
(raising `IndexError` if the list has one element), converts
`value[0]` when `value[1]` is "MB" or "GB" (a failed `float()` is a
`ValueError`, caught by the source with no further mutation), then
deletes `value[-2]`. -/
def prepTryBlock (v1 : List Tok) : PrepTryResult :=
  match v1.get? 1 with
  | none => .indexError
  | some t1 =>
    let afterMB : Option (List Tok) :=
      if t1 = .s "MB" then
        match v1.get? 0 with
        | none => none
        | some t0 =>
          match tokFloat t0 with
          | none => none
          | some q => some (v1.set 0 (.f (q * 1024 * 1024)))
      else some v1
    match afterMB with
    | none => .valueError
    | some v2 =>
      if v2.get? 1 = some (.s "GB") then
        match v2.get? 0 with
        | none => .indexError
        | some t0 =>
          match tokFloat t0 with
          | none => .valueError
          | some q => .ok ((v2.set 0 (.f (q * 1024 * 1024 * 1024))).eraseIdx
              ((v2.set 0 (.f (q * 1024 * 1024 * 1024))).length - 2))
      else .ok (v2.eraseIdx (v2.length - 2))

/-- The trailing `if len(value) == 3` block: rebuilds the list as
`[str(value[0] + " " + value[1]), value[2]]`; the `+` is string
concatenation, so a numeric cell in position 0 or 1 raises an uncaught
`TypeError`, modelled as `none`. -/
def prepFinalStep (v : List Tok) : Option (List Tok) :=
  if v.length = 3 then
    match v.get? 0, v.get? 1, v.get? 2 with
    | some (.s a), some (.s b), some c => some [.s (a ++ " " ++ b), c]
    | _, _, _ => none
  else some v

/-- The loop body of `prepare_additional_stats_dict` on one value
list: skip lists of at most one token, delete the second-to-last
token, run the `try` block (a caught `ValueError` leaves the list as
it was before the block), then the three-token recombination step.
`none` models an uncaught exception. -/
def prepare_additional_stats_value (v : List Tok) : Option (List Tok) :=
  if v.length > 1 then
    let v1 := v.eraseIdx (v.length - 2)
    match prepTryBlock v1 with
    | .indexError => none
    | .valueError => prepFinalStep v1
    | .ok v3 => prepFinalStep v3
  else some v

/-- `prepare_additional_stats_dict` from `collector.py`: the loop
over the dict entries; an uncaught exception on any value aborts the
whole call (`none`). -/
def prepare_additional_stats_dict (stats_dict : List (String × List Tok)) :
    Option (List (String × List Tok)) :=
  stats_dict.mapM (fun p => (prepare_additional_stats_value p.2).map (fun v => (p.1, v)))

/-! ## Metric names -/

/-- The metric name built for one additional-db-stats entry in
`_metric_db_additional_stats` (line 103 of `collector.py`):
`"otrs_additional_db_stats_" + str(k)`. -/
def additionalStatsMetricName (k : String) : String :=
  "otrs_additional_db_stats_" ++ k

/-- The sequence of metric-family names yielded by one
`OtrsConnector.collect()` pass, in source order; `dbStatKeys` are the
keys of the additional-db-stats dict, `indexKeys` the keys of the
search-index dict and `percKeys` the percentage keys derived from
them. -/
def collectMetricNames (dbStatKeys indexKeys percKeys : List String) : List String :=
  ["otrs_mail_error", "otrs_elastic_status_ok", "otrs_daemon_cron_jobs",
   "otrs_config_valid", "otrs_db_status_ok"]
  ++ dbStatKeys.map additionalStatsMetricName
  ++ ["otrs_daemon_summary", "otrs_elastic_status_ok", "otrs_elastic_cluster_status",
      "otrs_elastic_failed_nodes", "otrs_elastic_node_status"]
  ++ indexKeys.map (fun k => "otrs_elastic_index_states_" ++ k)
  ++ percKeys.map (fun k => "otrs_elastic_index_" ++ k)

/-- Occurrences of a name in a name list. -/
def countNames (target : String) : List String → Nat
  | [] => 0
  | n :: ns => (if n = target then 1 else 0) + countNames target ns

/-- Python `s.startswith(pre)`. -/
def strStartsWith (s pre : String) : Bool :=
  leadsWith pre.data s.data

/-! ## Search-index states and percentages
(`get_elastic_index_states`, `_metric_elastic_index_states`)

The table rows are `(IndexName, available, indexed)` regex captures;
index names are camel-case words and the counts are digit strings. -/

/-- Worker for `pySnakeLower`: insert an underscore before every
(non-leading) uppercase character and lower-case everything, as
`re.sub(r'(?<!^)(?=[A-Z])', '_', name).lower()` does. -/
def snakeTail : List Char → List Char
  | [] => []
  | c :: cs => (if c.isUpper then ['_', c.toLower] else [c.toLower]) ++ snakeTail cs

/-- Camel case to lower snake case, first character exempt from the
underscore insertion. -/
def pySnakeLower (name : String) : String :=
  match name.data with
  | [] => ""
  | c :: cs => String.mk (c.toLower :: snakeTail cs)

/-- Python `s.rsplit("_", 1)[0]`: everything before the last
underscore, or the whole string when there is none. -/
def rsplitPre (s : String) : String :=
  match s.data.reverse.dropWhile (fun c => !(c == '_')) with
  | [] => s
  | _ :: rest => String.mk rest.reverse

/-- `get_elastic_index_states` from `collector.py` applied to the
regex captures `(name, avail, indexed)`: builds the `_indexed` dict,
then `update`s it with the `_avail` dict. -/
def get_elastic_index_states (rows : List (String × String × String)) :
    List (String × String) :=
  let indices_indexed := pyDictOf (rows.map (fun r => (pySnakeLower r.1 ++ "_indexed", r.2.2)))
  let indices_avail := pyDictOf (rows.map (fun r => (pySnakeLower r.1 ++ "_avail", r.2.1)))
  pyDictUpdate indices_indexed indices_avail

/-- The percentage computation of `_metric_elastic_index_states`
(lines 159-170 of `collector.py`) on the indices dict: filter the
keys containing "avail" resp. "indexed", convert the filtered values
with `float()` (`none` models an uncaught `ValueError`), zip indexed
against avail guarding a zero denominator with 1.0, and pair with the
`rsplit`-derived percentage keys (`dict(zip(...))` truncates to the
shorter list). -/
def elasticIndexPercentages (indices : List (String × String)) :
    Option (List (String × ℚ)) :=
  let avail := indices.filter (fun p => strContains p.1 "avail")
  let indexed := indices.filter (fun p => strContains p.1 "indexed")
  let keys := indices.map (fun p => rsplitPre p.1 ++ "_percentage")
  match avail.mapM (fun p => parsePyFloat p.2) with
  | none => none
  | some values_avail =>
    match indexed.mapM (fun p => parsePyFloat p.2) with
    | none => none
    | some values_indexed =>
      let values := (values_indexed.zip values_avail).map
        (fun xy => if xy.2 = 0 then 1 else xy.1 / xy.2)
      some (pyDictOf (keys.zip values))

/-! ## Helper lemmas -/

/-- String concatenation concatenates the character lists. -/
theorem strDataAppend (a b : String) : (a ++ b).data = a.data ++ b.data := rfl

/-- A list is an initial segment of itself followed by anything. -/
theorem leadsWith_self_append (p r : List Char) : leadsWith p (p ++ r) = true := by
  induction p with
  | nil => rfl
  | cons c cs ih => simp [leadsWith, ih]

/-- If `t` does not begin with `p`, then no string with prefix `p`
equals `t`. -/
theorem append_ne_of_not_leads (p k t : String)
    (hf : leadsWith p.data t.data = false) : p ++ k ≠ t := by
  intro h
  have hd : p.data ++ k.data = t.data := by
    rw [← strDataAppend, h]
  have htrue := leadsWith_self_append p.data k.data
  rw [hd, hf] at htrue
  exact Bool.noConfusion htrue

theorem countNames_append (t : String) (l1 l2 : List String) :
    countNames t (l1 ++ l2) = countNames t l1 + countNames t l2 := by
  induction l1 with
  | nil => simp [countNames]
  | cons a l ih => simp [countNames, ih, Nat.add_assoc]

theorem countNames_map_zero {β : Type} (t : String) (f : β → String) (l : List β)
    (hf : ∀ x, f x ≠ t) : countNames t (l.map f) = 0 := by
  induction l with
  | nil => rfl
  | cons a l ih => simp [countNames, ih, hf a]

theorem mem_setInsert (y x : String) (l : List String) :
    y ∈ setInsert x l ↔ y ∈ l ∨ y = x := by
  unfold setInsert
  split
  · rename_i hc
    constructor
    · exact Or.inl
    · rintro (h | rfl)
      · exact h
      · exact List.mem_of_elem_eq_true hc
  · simp

theorem nodup_setInsert (x : String) (l : List String) (h : l.Nodup) :
    (setInsert x l).Nodup := by
  unfold setInsert
  split
  · exact h
  · rename_i hc
    have hx : x ∉ l := fun hm => hc (List.elem_eq_true_of_mem hm)
    simpa [List.nodup_append, h] using hx

theorem mem_foldl_setInsert (l : List String) :
    ∀ (acc : List String) (y : String),
      y ∈ l.foldl (fun acc x => setInsert x acc) acc ↔ y ∈ acc ∨ y ∈ l := by
  induction l with
  | nil => simp
  | cons a l ih =>
    intro acc y
    simp only [List.foldl_cons, ih, mem_setInsert, List.mem_cons]
    tauto

theorem mem_listToSet (l : List String) (y : String) :
    y ∈ listToSet l ↔ y ∈ l := by
  unfold listToSet
  rw [mem_foldl_setInsert]
  simp

theorem nodup_foldl_setInsert (l : List String) :
    ∀ acc : List String, acc.Nodup →
      (l.foldl (fun acc x => setInsert x acc) acc).Nodup := by
  induction l with
  | nil => intro acc h; exact h
  | cons a l ih =>
    intro acc h
    exact ih _ (nodup_setInsert a acc h)

theorem nodup_listToSet (l : List String) : (listToSet l).Nodup :=
  nodup_foldl_setInsert l [] List.nodup_nil

/-- With `a` among the statuses, the distinct-status count exceeds 1
exactly when some status differs from `a`. -/
theorem one_lt_listToSet_length_iff (l : List String) (a : String) (ha : a ∈ l) :
    1 < (listToSet l).length ↔ ∃ x ∈ l, x ≠ a := by
  have hamem : a ∈ listToSet l := (mem_listToSet l a).mpr ha
  have hnd := nodup_listToSet l
  constructor
  · intro hlen
    by_contra hc
    push_neg at hc
    have hall : ∀ x ∈ listToSet l, x = a :=
      fun x hx => hc x ((mem_listToSet l x).mp hx)
    match hset : listToSet l with
    | [] => rw [hset] at hamem; exact absurd hamem (List.not_mem_nil a)
    | [_] => rw [hset] at hlen; simp at hlen
    | x :: y :: t =>
      rw [hset] at hall hnd
      have hx : x = a := hall x (by simp)
      have hy : y = a := hall y (by simp)
      rw [List.nodup_cons] at hnd
      exact hnd.1 (by simp [hx, hy])
  · rintro ⟨x, hx, hne⟩
    have hxmem : x ∈ listToSet l := (mem_listToSet l x).mpr hx
    match hset : listToSet l with
    | [] => rw [hset] at hamem; exact absurd hamem (List.not_mem_nil a)
    | [z] =>
      rw [hset] at hamem hxmem
      simp at hamem hxmem
      exact absurd (hxmem.trans hamem.symm) hne
    | _ :: _ :: _ => simp

/-- Evaluation of `parsePyFloat` on a plain digit string. -/
theorem parsePyFloat_digits (s : String) (d : List Char) (n : Nat)
    (hp : parseFloatParts s = some ⟨false, d, [], false, []⟩)
    (hd : digitsVal d = n) : parsePyFloat s = some (n : ℚ) := by
  rw [parsePyFloat, hp]
  show some (ratOfParts ⟨false, d, [], false, []⟩) = some (n : ℚ)
  rw [ratOfParts]
  simp only [hd]
  norm_num [digitsVal]

/-! ## Claim theorems -/

/-- C1: the daemon job success rate in `get_job_success_rate` is NOT
defined for every input text — the source divides by
`successCount + failCount` with no guard, so a text with zero
occurrences of "Success" and "Fail" (e.g. the empty string, the
output of a failed CLI call) hits an uncaught `ZeroDivisionError`
(modelled by `none`), where the claim demands the rate 0.  For
`(success, fail) = (3, 1)` the code does produce 3/4 = 0.75 as the
claim states. -/
theorem C1_success_rate_division_error :
    get_job_success_rate "" = none
  ∧ get_job_success_rate "Success Success Success Fail" = some (3 / 4) := by
  constructor
  · rfl
  · have h1 : strCount "Success Success Success Fail" "Success" = 3 := by decide
    have h2 : strCount "Success Success Success Fail" "Fail" = 1 := by decide
    simp only [get_job_success_rate, h1, h2]
    norm_num

/-- C2 counterexample: the source decides staleness with
`delta.seconds > 900`, and Python `timedelta.seconds` drops whole
days.  At elapsed time 86401 s (one day + 1 s, well over the
900-second window) `delta.seconds = 1`, so the stale cache entry
`(lastCheckedAt 0, value 3)` is reused and the fresh value 7 is
neither computed into the cache nor emitted — the claim demands a
recompute at every elapsed time `≥` 900 s, in particular beyond one
day. -/
theorem C2_cache_window_counterexample :
    cachedCheckStep 86401 (7 : Int) ⟨0, 3⟩ = (⟨0, 3⟩, 3)
  ∧ cachedCheckStep 86401 (7 : Int) ⟨0, 3⟩ ≠ (⟨86401, 7⟩, 7)
  ∧ ¬ (86401 - 0 < 900) := by decide

/-- C2 amended: on every scrape the cached result is reused if and
only if `(now - lastCheckedAt) mod 86400 ≤ 900` — the elapsed time is
taken modulo one day (Python `timedelta.seconds`) and the 900-second
boundary itself is on the reuse side; concretely a result cached at
t=0 is still reused verbatim at t=899 s and recomputed at t=901 s. -/
theorem C2_cache_window_amended {α : Type} (now last : Nat) (fresh cache : α)
    (h : last ≤ now) :
    ((cachedCheckStep now fresh ⟨last, cache⟩).1 = ⟨last, cache⟩ ↔
      (now - last) % 86400 ≤ 900)
  ∧ cachedCheckStep 899 fresh (⟨0, cache⟩ : CachedCheck α) = (⟨0, cache⟩, cache)
  ∧ cachedCheckStep 901 fresh (⟨0, cache⟩ : CachedCheck α) = (⟨901, fresh⟩, fresh) := by
  refine ⟨?_, ?_, ?_⟩
  · unfold cachedCheckStep tdSeconds
    dsimp only
    split
    · rename_i hgt
      simp only [CachedCheck.mk.injEq]
      constructor
      · rintro ⟨rfl, rfl⟩
        omega
      · intro hle
        omega
    · rename_i hngt
      simp only [true_iff]
      omega
  · simp [cachedCheckStep, tdSeconds]
  · simp [cachedCheckStep, tdSeconds]

/-- C2 witness: the amended reuse criterion at the claim's own
boundary example — a check cached at t=0 is still served from the
cache at t=899 s. -/
theorem C2_cache_window_witness :
    (cachedCheckStep 899 (7 : Int) ⟨0, 3⟩).1 = ⟨0, 3⟩ ↔ (899 - 0) % 86400 ≤ 900 :=
  (C2_cache_window_amended 899 0 (7 : Int) 3 (by decide)).1

/-- C3 counterexample: `_metric_mail_error_count` is not a running
total — when `delta.seconds` since the last error reaches 900 the
accumulated count is REPLACED by the new poll count.  With previous
total 5, no new errors and 1000 s elapsed since the last error, the
emitted value is 0, not the 5 + 0 the claim demands. -/
theorem C3_mail_error_reset_counterexample :
    (metric_mail_error_count_step 1000 0 ⟨0, 5⟩).2 = 0
  ∧ (metric_mail_error_count_step 1000 0 ⟨0, 5⟩).2 ≠ 5 + 0 := by decide

/-- C3 amended: the emitted mail-error value is the previous total
plus the poll's new-match count only while
`(now - lastError) mod 86400 < 900`; once 900 s (modulo one day) have
passed since the last error it is replaced by the new count alone
(a decay-and-replace window, not a monotonic total), and the
last-error timestamp advances exactly when the poll saw new errors. -/
theorem C3_mail_error_amended (now newErrors : Nat) (st : MailErrorState) :
    ((now - st.lastMailErrorOccurredAt) % 86400 < 900 →
      (metric_mail_error_count_step now newErrors st).2 =
        st.mailFetcherErrors + newErrors)
  ∧ (900 ≤ (now - st.lastMailErrorOccurredAt) % 86400 →
      (metric_mail_error_count_step now newErrors st).2 = newErrors)
  ∧ (0 < newErrors →
      (metric_mail_error_count_step now newErrors st).1.lastMailErrorOccurredAt = now)
  ∧ (newErrors = 0 →
      (metric_mail_error_count_step now newErrors st).1.lastMailErrorOccurredAt =
        st.lastMailErrorOccurredAt) := by
  unfold metric_mail_error_count_step tdSeconds
  dsimp only
  refine ⟨fun h => ?_, fun h => ?_, fun h => ?_, fun h => ?_⟩
  · rw [if_pos h]
  · rw [if_neg (by omega)]
  · rw [if_pos h]
  · rw [if_neg (by omega)]

/-- C3 witness: inside the 900-second window the running-total
behavior does hold (previous total 5, two new errors, 100 s
elapsed). -/
theorem C3_mail_error_witness :
    (metric_mail_error_count_step 100 2 ⟨0, 5⟩).2 = 5 + 2 :=
  (C3_mail_error_amended 100 2 ⟨0, 5⟩).1 (by decide)

/-- C4 counterexample: `call_otrs_cli` wraps `subprocess.run` in no
try/except, so a spawn failure (console binary not found) propagates
as an exception to the caller instead of returning empty text as the
claim demands. -/
theorem C4_invoker_counterexample :
    call_otrs_cli .spawnFailure = .error .spawnError
  ∧ call_otrs_cli .spawnFailure ≠ .ok "" :=
  ⟨rfl, fun h => Except.noConfusion h⟩

/-- C4 amended: the invoker returns the captured stdout text verbatim
for every exit code (a non-zero exit is NOT turned into empty text —
the exit code is simply never inspected), but a spawn failure or a
UTF-8 decode failure raises instead of returning empty text; the
downstream parsers do treat empty text as "no match", producing their
default/negative value (0, the empty map, and — for the unguarded
success rate — the zero-denominator division error). -/
theorem C4_invoker_amended :
    (∀ (exitCode : Int) (out : String),
      call_otrs_cli (.completed exitCode (some out)) = .ok out)
  ∧ call_otrs_cli .spawnFailure = .error .spawnError
  ∧ (∀ exitCode : Int, call_otrs_cli (.completed exitCode none) = .error .decodeError)
  ∧ is_config_valid "" = 0
  ∧ get_db_status "" = 0
  ∧ get_elastic_status "" = 0
  ∧ get_mail_queue_empty "" = 0
  ∧ get_failing_crons "" = []
  ∧ get_job_success_rate "" = none :=
  ⟨fun _ _ => rfl, rfl, fun _ => rfl, rfl, rfl, rfl, rfl, rfl, rfl⟩

/-- Inserting a pair whose value is `c` into a dict all of whose
values are `c` keeps every value equal to `c`. -/
theorem pyDictInsert_const_snd {α : Type} (c : α) (d : List (String × α)) (k : String)
    (hd : ∀ p ∈ d, p.2 = c) : ∀ q ∈ pyDictInsert d k c, q.2 = c := by
  intro q hq
  unfold pyDictInsert at hq
  split at hq
  · obtain ⟨x, hx, hxq⟩ := List.mem_map.mp hq
    by_cases hk : x.1 == k
    · rw [if_pos hk] at hxq
      rw [← hxq]
    · rw [if_neg hk] at hxq
      rw [← hxq]
      exact hd x hx
  · rcases List.mem_append.mp hq with h | h
    · exact hd q h
    · rw [List.mem_singleton.mp h]

/-- Folding dict inserts of constant-valued pairs preserves the
constant-value invariant. -/
theorem foldl_pyDictInsert_const_snd {α : Type} (c : α) (ps : List (String × α)) :
    ∀ d : List (String × α), (∀ p ∈ d, p.2 = c) → (∀ p ∈ ps, p.2 = c) →
      ∀ q ∈ ps.foldl (fun d p => pyDictInsert d p.1 p.2) d, q.2 = c := by
  induction ps with
  | nil => intro d hd _ q hq; exact hd q hq
  | cons p ps ih =>
    intro d hd hp q hq
    rw [List.foldl_cons] at hq
    have hpv : p.2 = c := hp p (List.mem_cons_self p ps)
    refine ih (pyDictInsert d p.1 p.2) ?_ (fun r hr => hp r (List.mem_cons_of_mem _ hr)) q hq
    rw [hpv]
    exact pyDictInsert_const_snd c d p.1 hd

/-- Every value of a dict built from constant-valued pairs is that
constant. -/
theorem pyDictOf_const_snd {α : Type} (c : α) (ps : List (String × α))
    (hps : ∀ p ∈ ps, p.2 = c) : ∀ q ∈ pyDictOf ps, q.2 = c := by
  unfold pyDictOf
  exact foldl_pyDictInsert_const_snd c ps [] (by simp) hps

/-- C5 counterexample: the dict comprehension of `get_failing_crons`
is `·match: "0"·` — the claim's row maps `JobFoo` to the string `"0"`,
not to `"failed"`. -/
theorem C5_failing_value_counterexample :
    get_failing_crons "| JobFoo | 12:00-12:05 | Fail |" = [("JobFoo", "0")]
  ∧ get_failing_crons "| JobFoo | 12:00-12:05 | Fail |" ≠ [("JobFoo", "failed")] := by
  decide

/-- C5 amended: the cron-table parser maps each job whose trailing
status marker is "Fail" to the string value "0" (not "failed") — the
claim's row yields the single entry `("JobFoo", "0")`, a row ending
in `Success` yields no entry, and every value of the resulting map is
"0" for every input text. -/
theorem C5_failing_crons_amended :
    get_failing_crons "| JobFoo | 12:00-12:05 | Fail |" = [("JobFoo", "0")]
  ∧ get_failing_crons "| JobFoo | 12:00-12:05 | Success |" = []
  ∧ (∀ (text : String) (p : String × String), p ∈ get_failing_crons text → p.2 = "0") := by
  refine ⟨by decide, by decide, ?_⟩
  intro text p hp
  unfold get_failing_crons at hp
  exact pyDictOf_const_snd "0" _ (by simp) p hp

/-- C5 witness: the general value fact of the amended claim, applied
at the claim's own failing row. -/
theorem C5_failing_crons_witness :
    ("JobFoo", "0") ∈ get_failing_crons "| JobFoo | 12:00-12:05 | Fail |"
  ∧ (("JobFoo", "0") : String × String).2 = "0" :=
  ⟨by decide,
   C5_failing_crons_amended.2.2 "| JobFoo | 12:00-12:05 | Fail |" ("JobFoo", "0") (by decide)⟩

/-- C6 counterexample: on the claim's token list `["512", "MB",
"(OK)"]` the normalizer first executes `del value[-2]`, deleting the
"MB" unit token itself; the subsequent check `value[1] == "MB"` then
sees "(OK)", so no byte conversion happens and the second `del`
removes the numeric token: the result is `["(OK)"]`, not a 536870912
value classified "OK". -/
theorem C6_byte_normalization_counterexample :
    prepare_additional_stats_value [.s "512", .s "MB", .s "(OK)"] = some [.s "(OK)"]
  ∧ prepare_additional_stats_value [.s "512", .s "MB", .s "(OK)"] ≠
      some [.f 536870912, .s "OK"] := by decide

/-- C6 amended: the unit check happens at token index 1 AFTER the
second-to-last token was dropped, so the conversion applies to
four-token extractor outputs `[num, "MB", mid, tag]` (as produced for
a raw value like "512 MB (OK)", whose extracted tokens are
`["512", "MB", "-", "OK"]`): the numeric first token is multiplied by
1024·1024 for "MB" (1024·1024·1024 for "GB") and the unit token is
dropped, yielding `[bytes, tag]`; in particular `["512", "MB", "-",
"OK"]` normalizes to 536870912 bytes with classification "OK".  A
literal three-token list `["512", "MB", "(OK)"]` instead loses its
unit token to the first deletion and collapses to `["(OK)"]`. -/
theorem C6_byte_normalization_amended (numStr mid tag : String) (q : ℚ)
    (hq : parsePyFloat numStr = some q) :
    prepare_additional_stats_value [.s numStr, .s "MB", .s mid, .s tag] =
      some [.f (q * 1024 * 1024), .s tag]
  ∧ prepare_additional_stats_value [.s numStr, .s "GB", .s mid, .s tag] =
      some [.f (q * 1024 * 1024 * 1024), .s tag]
  ∧ prepare_additional_stats_dict [("k", [.s "512", .s "MB", .s "-", .s "OK"])] =
      some [("k", [.f 536870912, .s "OK"])]
  ∧ prepare_additional_stats_value [.s "512", .s "MB", .s "(OK)"] = some [.s "(OK)"] := by
  have hmb : ∀ (ns mid tg : String) (p : ℚ), parsePyFloat ns = some p →
      prepare_additional_stats_value [.s ns, .s "MB", .s mid, .s tg] =
        some [.f (p * 1024 * 1024), .s tg] := by
    intro ns mid tg p hp
    simp [prepare_additional_stats_value, prepTryBlock, prepFinalStep, tokFloat,
      List.eraseIdx, List.set, hp]
  have h512 : parsePyFloat "512" = some (512 : ℚ) := by
    have := parsePyFloat_digits "512" ['5', '1', '2'] 512 (by decide) (by decide)
    simpa using this
  refine ⟨hmb numStr mid tag q hq, ?_, ?_, by decide⟩
  · simp [prepare_additional_stats_value, prepTryBlock, prepFinalStep, tokFloat,
      List.eraseIdx, List.set, hq]
  · simp only [prepare_additional_stats_dict, List.mapM_cons, List.mapM_nil,
      hmb "512" "-" "OK" 512 h512]
    norm_num

/-- C6 witness: the amended MB conversion at the extractor's actual
token list for a 512-MB statistic. -/
theorem C6_byte_normalization_witness :
    prepare_additional_stats_value [.s "512", .s "MB", .s "-", .s "OK"] =
      some [.f 536870912, .s "OK"] := by
  have hq : parsePyFloat "512" = some (512 : ℚ) := by
    have := parsePyFloat_digits "512" ['5', '1', '2'] 512 (by decide) (by decide)
    simpa using this
  have h := (C6_byte_normalization_amended "512" "-" "OK" 512 hq).1
  rw [h]
  norm_num

/-- C7: the overall search-node status derived from the extracted
node status strings is 0 (Red) when the literal "On-line" never
appears, 1/2 (Yellow) when "On-line" appears together with at least
one different status value, and 1 (Green) when "On-line" is the only
status value; in particular the three example status sets of the
claim. -/
theorem C7_overall_nodes_status :
    (∀ states : List String,
      get_elastic_overall_nodes_status states =
        if "On-line" ∈ states then
          (if ∃ x ∈ states, x ≠ "On-line" then (1 / 2 : ℚ) else 1)
        else 0)
  ∧ get_elastic_overall_nodes_status ["On-line"] = 1
  ∧ get_elastic_overall_nodes_status ["On-line", "Off-line"] = 1 / 2
  ∧ get_elastic_overall_nodes_status ["Off-line"] = 0 := by
  have hgen : ∀ states : List String,
      get_elastic_overall_nodes_status states =
        if "On-line" ∈ states then
          (if ∃ x ∈ states, x ≠ "On-line" then (1 / 2 : ℚ) else 1)
        else 0 := by
    intro states
    unfold get_elastic_overall_nodes_status
    dsimp only
    by_cases hm : "On-line" ∈ states
    · have hmem : "On-line" ∈ listToSet states := (mem_listToSet states "On-line").mpr hm
      rw [if_neg (by simp [hmem]), if_pos hm]
      by_cases hex : ∃ x ∈ states, x ≠ "On-line"
      · rw [if_pos ((one_lt_listToSet_length_iff states "On-line" hm).mpr hex), if_pos hex]
      · rw [if_neg (fun h => hex ((one_lt_listToSet_length_iff states "On-line" hm).mp h)),
          if_neg hex]
    · have hc : ¬ (listToSet states).contains "On-line" = true := by
        intro h
        exact hm ((mem_listToSet states "On-line").mp (List.mem_of_elem_eq_true h))
      rw [if_pos (by simpa using hc), if_neg hm]
  refine ⟨hgen, ?_, ?_, ?_⟩
  · rw [hgen ["On-line"], if_pos (by decide), if_neg (by decide)]
  · rw [hgen ["On-line", "Off-line"], if_pos (by decide), if_pos (by decide)]
  · rw [hgen ["Off-line"], if_neg (by decide)]

/-- C8 counterexample: the metric name actually built for a stat key
(line 103 of `collector.py`) starts with `otrs_additional_db_stats_`;
it does not carry the claimed `otrs_daemon_additional_db_stats_`
prefix. -/
theorem C8_stats_name_counterexample :
    additionalStatsMetricName "size" = "otrs_additional_db_stats_size"
  ∧ strStartsWith (additionalStatsMetricName "size")
      "otrs_daemon_additional_db_stats_" = false := by decide

/-- C8 amended: every additional-db-stats metric name is the prefix
`otrs_additional_db_stats_` (no "daemon") followed by the statistic
key (the underscored lower-cased label produced by
`get_additional_db_stats`). -/
theorem C8_stats_name_amended (k : String) :
    strStartsWith (additionalStatsMetricName k) "otrs_additional_db_stats_" = true := by
  unfold strStartsWith additionalStatsMetricName
  rw [strDataAppend]
  exact leadsWith_self_append _ _

/-- C9: one `collect()` pass yields exactly two metric families named
`otrs_elastic_status_ok`: `_metric_mail_queue_empty` (the mail-queue
flag, second yield) reuses the very name under which
`_metric_elastic_status_ok` (the elastic connection status, eighth
yield) is emitted, whatever the db-stats and index keys are. -/
theorem C9_duplicate_elastic_status_name (dbStatKeys indexKeys percKeys : List String) :
    countNames "otrs_elastic_status_ok"
      (collectMetricNames dbStatKeys indexKeys percKeys) = 2 := by
  unfold collectMetricNames
  rw [countNames_append, countNames_append, countNames_append, countNames_append]
  have h1 : ∀ k : String, additionalStatsMetricName k ≠ "otrs_elastic_status_ok" := fun k =>
    append_ne_of_not_leads "otrs_additional_db_stats_" k "otrs_elastic_status_ok" (by decide)
  have h2 : ∀ k : String, "otrs_elastic_index_states_" ++ k ≠ "otrs_elastic_status_ok" :=
    fun k =>
      append_ne_of_not_leads "otrs_elastic_index_states_" k "otrs_elastic_status_ok" (by decide)
  have h3 : ∀ k : String, "otrs_elastic_index_" ++ k ≠ "otrs_elastic_status_ok" := fun k =>
    append_ne_of_not_leads "otrs_elastic_index_" k "otrs_elastic_status_ok" (by decide)
  rw [countNames_map_zero _ _ _ h1, countNames_map_zero _ _ _ h2,
    countNames_map_zero _ _ _ h3]
  decide

/-! ## Helper lemmas for the search-index percolation (C10) -/

theorem strExt (a b : String) (h : a.data = b.data) : a = b := by
  cases a
  cases b
  exact congrArg String.mk h

theorem append_right_injective (t : String) :
    Function.Injective (fun s : String => s ++ t) := by
  intro a b h
  have h2 : a ++ t = b ++ t := h
  apply strExt
  have hd : a.data ++ t.data = b.data ++ t.data := by
    rw [← strDataAppend, ← strDataAppend, h2]
  exact List.append_cancel_right hd

theorem dropWhile_append_all {α : Type} (p : α → Bool) (xs ys : List α)
    (h : ∀ x ∈ xs, p x = true) : (xs ++ ys).dropWhile p = ys.dropWhile p := by
  induction xs with
  | nil => rfl
  | cons a xs ih =>
    rw [List.cons_append, List.dropWhile_cons, if_pos (h a (by simp))]
    exact ih (fun x hx => h x (by simp [hx]))

/-- `rsplit("_", 1)[0]` strips a trailing underscore-led suffix whose
tail has no further underscore. -/
theorem rsplitPre_append (s t : String) (u : List Char)
    (ht : t.data = '_' :: u) (hu : ∀ c ∈ u, (c == '_') = false) :
    rsplitPre (s ++ t) = s := by
  have key : (s ++ t).data.reverse.dropWhile (fun c => !(c == '_')) =
      '_' :: s.data.reverse := by
    rw [strDataAppend, ht, List.reverse_append, List.reverse_cons, List.append_assoc,
      List.singleton_append]
    rw [dropWhile_append_all _ _ _ (fun c hc => by
      rw [List.mem_reverse] at hc
      simp [hu c hc])]
    rw [List.dropWhile_cons]
    simp
  unfold rsplitPre
  rw [key]
  show String.mk s.data.reverse.reverse = s
  rw [List.reverse_reverse]

/-- When two concatenations agree and `y` is at most as long as `x`,
the left factor `y` is an initial segment of `x`. -/
theorem leads_of_append_eq (y : List Char) :
    ∀ x u v : List Char, x ++ u = y ++ v → y.length ≤ x.length → leadsWith y x = true := by
  induction y with
  | nil => intro x u v h hl; rfl
  | cons c ys ih =>
    intro x u v h hl
    cases x with
    | nil => simp at hl
    | cons d xs =>
      rw [List.cons_append, List.cons_append] at h
      injection h with h1 h2
      subst h1
      simp only [leadsWith, beq_self_eq_true, Bool.true_and]
      exact ih xs u v h2 (by simpa using hl)

/-- Strings with distinct known suffixes differ, whatever their
stems. -/
theorem append_ne_of_suffix_mismatch (a b t1 t2 : String)
    (hlen : t2.data.length ≤ t1.data.length)
    (hf : leadsWith t2.data.reverse t1.data.reverse = false) :
    a ++ t1 ≠ b ++ t2 := by
  intro h
  have hd : a.data ++ t1.data = b.data ++ t2.data := by
    rw [← strDataAppend, ← strDataAppend, h]
  have hr : t1.data.reverse ++ a.data.reverse = t2.data.reverse ++ b.data.reverse := by
    have hrev := congrArg List.reverse hd
    rwa [List.reverse_append, List.reverse_append] at hrev
  have hlead := leads_of_append_eq t2.data.reverse t1.data.reverse a.data.reverse
    b.data.reverse hr (by simpa using hlen)
  rw [hf] at hlead
  exact Bool.noConfusion hlead

theorem pyDictInsert_fresh {α : Type} (d : List (String × α)) (k : String) (v : α)
    (h : ∀ p ∈ d, p.1 ≠ k) : pyDictInsert d k v = d ++ [(k, v)] := by
  have hc : d.any (fun p => p.1 == k) = false := by
    rw [List.any_eq_false]
    intro p hp
    simpa using h p hp
  unfold pyDictInsert
  rw [hc]
  simp

theorem pyDictUpdate_fresh {α : Type} :
    ∀ ps d : List (String × α),
      (∀ p ∈ ps, ∀ q ∈ d, q.1 ≠ p.1) → (ps.map Prod.fst).Nodup →
      pyDictUpdate d ps = d ++ ps := by
  intro ps
  induction ps with
  | nil => intro d _ _; simp [pyDictUpdate]
  | cons p ps ih =>
    intro d hfresh hnd
    rw [List.map_cons, List.nodup_cons] at hnd
    unfold pyDictUpdate
    rw [List.foldl_cons]
    have h1 : pyDictInsert d p.1 p.2 = d ++ [p] := by
      have := pyDictInsert_fresh d p.1 p.2 (fun q hq => hfresh p (by simp) q hq)
      simpa using this
    rw [h1]
    have h2 := ih (d ++ [p]) ?_ hnd.2
    · unfold pyDictUpdate at h2
      rw [h2, List.append_assoc, List.singleton_append]
    · intro r hr q hq
      rcases List.mem_append.mp hq with hq1 | hq2
      · exact hfresh r (by simp [hr]) q hq1
      · rw [List.mem_singleton.mp hq2]
        intro heq
        exact hnd.1 (heq ▸ List.mem_map_of_mem Prod.fst hr)

theorem pyDictOf_fresh {α : Type} (ps : List (String × α))
    (hnd : (ps.map Prod.fst).Nodup) : pyDictOf ps = ps := by
  have h := pyDictUpdate_fresh ps [] (by simp) hnd
  rw [pyDictUpdate] at h
  rw [pyDictOf, h, List.nil_append]

theorem filter_append_right {α : Type} (p : α → Bool) (A B : List α)
    (hA : ∀ a ∈ A, p a = false) (hB : ∀ b ∈ B, p b = true) :
    (A ++ B).filter p = B := by
  rw [List.filter_append, List.filter_eq_nil_iff.mpr (fun a ha => by simp [hA a ha]),
    List.filter_eq_self.mpr hB, List.nil_append]

theorem filter_append_left {α : Type} (p : α → Bool) (A B : List α)
    (hA : ∀ a ∈ A, p a = true) (hB : ∀ b ∈ B, p b = false) :
    (A ++ B).filter p = A := by
  rw [List.filter_append, List.filter_eq_self.mpr hA,
    List.filter_eq_nil_iff.mpr (fun b hb => by simp [hB b hb]), List.append_nil]

theorem containsSub_append_right (pat a b : List Char) (h : containsSub pat b = true) :
    containsSub pat (a ++ b) = true := by
  induction a with
  | nil => simpa using h
  | cons c cs ih => simp [containsSub, ih]

theorem strContains_append_suffix (s t pat : String) (h : strContains t pat = true) :
    strContains (s ++ t) pat = true := by
  unfold strContains at h ⊢
  rw [strDataAppend]
  exact containsSub_append_right pat.data s.data t.data h

theorem mapM_parse_getD {α : Type} (f : α → Option ℚ) :
    ∀ l : List α, (∀ a ∈ l, (f a).isSome = true) →
      l.mapM f = some (l.map (fun a => (f a).getD 0)) := by
  intro l
  induction l with
  | nil => intro _; rfl
  | cons a l ih =>
    intro h
    obtain ⟨b, hb⟩ := Option.isSome_iff_exists.mp (h a (by simp))
    rw [List.mapM_cons, hb, ih (fun x hx => h x (by simp [hx]))]
    simp [hb]

theorem zip_append_left {α β : Type} :
    ∀ (K K2 : List α) (V : List β), K.length = V.length → (K ++ K2).zip V = K.zip V := by
  intro K
  induction K with
  | nil =>
    intro K2 V h
    cases V with
    | nil => simp
    | cons v vs => simp at h
  | cons k ks ih =>
    intro K2 V h
    cases V with
    | nil => simp at h
    | cons v vs =>
      simp only [List.cons_append, List.zip_cons_cons]
      rw [ih K2 vs (by simpa using h)]

/-- C10 counterexample: the pairing of indexed-counts against
available-counts in `_metric_elastic_index_states` filters dict keys
by the substrings "avail" / "indexed", so for an index whose own name
contains "avail" — e.g. `Availability` with 5 available and 3 indexed
documents — the `..._indexed` key also lands in the avail list, the
zip truncates against the misaligned lists, and the emitted
percentage is 1 instead of the claimed 3/5 even though the available
count 5 is nonzero. -/
theorem C10_percentage_counterexample :
    elasticIndexPercentages (get_elastic_index_states [("Availability", "5", "3")]) =
      some [("availability_percentage", 1)]
  ∧ ((3 : ℚ) / 5 ≠ 1) ∧ ((5 : ℚ) ≠ 0) := by
  refine ⟨?_, by norm_num, by norm_num⟩
  have hd : get_elastic_index_states [("Availability", "5", "3")] =
      [("availability_indexed", "3"), ("availability_avail", "5")] := by decide
  rw [hd]
  have h3 : parsePyFloat "3" = some (3 : ℚ) := by
    simpa using parsePyFloat_digits "3" ['3'] 3 (by decide) (by decide)
  have h5 : parsePyFloat "5" = some (5 : ℚ) := by
    simpa using parsePyFloat_digits "5" ['5'] 5 (by decide) (by decide)
  have hfa : [("availability_indexed", "3"), ("availability_avail", "5")].filter
      (fun p => strContains p.1 "avail") =
      [("availability_indexed", "3"), ("availability_avail", "5")] := by decide
  have hfi : [("availability_indexed", "3"), ("availability_avail", "5")].filter
      (fun p => strContains p.1 "indexed") = [("availability_indexed", "3")] := by decide
  have hk : [("availability_indexed", "3"), ("availability_avail", "5")].map
      (fun p : String × String => rsplitPre p.1 ++ "_percentage") =
      ["availability_percentage", "availability_percentage"] := by decide
  simp only [elasticIndexPercentages, hfa, hfi, hk]
  rw [List.mapM_cons, List.mapM_cons, List.mapM_nil, h3, h5]
  simp
  simp [List.mapM.loop, h3]
  simp [pyDictOf, pyDictInsert]

/-- C10 amended: the percentage gauge is total — a zero
available-count is emitted as 1 rather than a division error — and it
equals indexed/available for every parsed table in which no
snake-cased index name contains "avail" or "indexed" as a substring
(so the substring-based filters pair each index's counts correctly);
for names violating that side condition the emitted value can differ
from indexed/available (see the counterexample). -/
theorem C10_percentage_amended (rows : List (String × String × String))
    (hnodup : (rows.map (fun r => pySnakeLower r.1)).Nodup)
    (hparse : ∀ r ∈ rows,
      (parsePyFloat r.2.1).isSome = true ∧ (parsePyFloat r.2.2).isSome = true)
    (hname : ∀ r ∈ rows,
      strContains (pySnakeLower r.1 ++ "_indexed") "avail" = false ∧
      strContains (pySnakeLower r.1 ++ "_avail") "indexed" = false) :
    elasticIndexPercentages (get_elastic_index_states rows) =
      some (rows.map (fun r =>
        (pySnakeLower r.1 ++ "_percentage",
         if (parsePyFloat r.2.1).getD 0 = 0 then (1 : ℚ)
         else (parsePyFloat r.2.2).getD 0 / (parsePyFloat r.2.1).getD 0))) := by
  have hnodA : ((rows.map (fun r => (pySnakeLower r.1 ++ "_indexed", r.2.2))).map
      Prod.fst).Nodup := by
    rw [List.map_map]
    have hco : (Prod.fst ∘ fun r : String × String × String =>
        (pySnakeLower r.1 ++ "_indexed", r.2.2)) =
        ((fun s => s ++ "_indexed") ∘ fun r : String × String × String =>
          pySnakeLower r.1) := rfl
    rw [hco, ← List.map_map]
    exact hnodup.map (append_right_injective "_indexed")
  have hnodB : ((rows.map (fun r => (pySnakeLower r.1 ++ "_avail", r.2.1))).map
      Prod.fst).Nodup := by
    rw [List.map_map]
    have hco : (Prod.fst ∘ fun r : String × String × String =>
        (pySnakeLower r.1 ++ "_avail", r.2.1)) =
        ((fun s => s ++ "_avail") ∘ fun r : String × String × String =>
          pySnakeLower r.1) := rfl
    rw [hco, ← List.map_map]
    exact hnodup.map (append_right_injective "_avail")
  have hnodP : ((rows.map (fun r => pySnakeLower r.1)).map
      (fun s => s ++ "_percentage")).Nodup :=
    hnodup.map (append_right_injective "_percentage")
  have hDict : get_elastic_index_states rows =
      rows.map (fun r => (pySnakeLower r.1 ++ "_indexed", r.2.2)) ++
      rows.map (fun r => (pySnakeLower r.1 ++ "_avail", r.2.1)) := by
    unfold get_elastic_index_states
    rw [pyDictOf_fresh _ hnodA, pyDictOf_fresh _ hnodB]
    apply pyDictUpdate_fresh
    · intro p hp q hq
      obtain ⟨r2, _, rfl⟩ := List.mem_map.mp hp
      obtain ⟨r1, _, rfl⟩ := List.mem_map.mp hq
      exact append_ne_of_suffix_mismatch (pySnakeLower r1.1) (pySnakeLower r2.1)
        "_indexed" "_avail" (by decide) (by decide)
    · exact hnodB
  rw [hDict]
  have hfa := filter_append_right (fun p : String × String => strContains p.1 "avail")
    (rows.map (fun r => (pySnakeLower r.1 ++ "_indexed", r.2.2)))
    (rows.map (fun r => (pySnakeLower r.1 ++ "_avail", r.2.1)))
    (by
      intro a ha
      obtain ⟨r, hr, rfl⟩ := List.mem_map.mp ha
      exact (hname r hr).1)
    (by
      intro b hb
      obtain ⟨r, _, rfl⟩ := List.mem_map.mp hb
      exact strContains_append_suffix (pySnakeLower r.1) "_avail" "avail" (by decide))
  have hfi := filter_append_left (fun p : String × String => strContains p.1 "indexed")
    (rows.map (fun r => (pySnakeLower r.1 ++ "_indexed", r.2.2)))
    (rows.map (fun r => (pySnakeLower r.1 ++ "_avail", r.2.1)))
    (by
      intro a ha
      obtain ⟨r, _, rfl⟩ := List.mem_map.mp ha
      exact strContains_append_suffix (pySnakeLower r.1) "_indexed" "indexed" (by decide))
    (by
      intro b hb
      obtain ⟨r, hr, rfl⟩ := List.mem_map.mp hb
      exact (hname r hr).2)
  have hVA := mapM_parse_getD (fun p : String × String => parsePyFloat p.2)
    (rows.map (fun r => (pySnakeLower r.1 ++ "_avail", r.2.1)))
    (by
      intro p hp
      obtain ⟨r, hr, rfl⟩ := List.mem_map.mp hp
      exact (hparse r hr).1)
  have hVI := mapM_parse_getD (fun p : String × String => parsePyFloat p.2)
    (rows.map (fun r => (pySnakeLower r.1 ++ "_indexed", r.2.2)))
    (by
      intro p hp
      obtain ⟨r, hr, rfl⟩ := List.mem_map.mp hp
      exact (hparse r hr).2)
  have hKeys : (rows.map (fun r => (pySnakeLower r.1 ++ "_indexed", r.2.2)) ++
      rows.map (fun r => (pySnakeLower r.1 ++ "_avail", r.2.1))).map
        (fun p => rsplitPre p.1 ++ "_percentage") =
      rows.map (fun r => pySnakeLower r.1 ++ "_percentage") ++
      rows.map (fun r => pySnakeLower r.1 ++ "_percentage") := by
    rw [List.map_append, List.map_map, List.map_map]
    have e1 : ∀ r ∈ rows,
        ((fun p : String × String => rsplitPre p.1 ++ "_percentage") ∘
          fun r : String × String × String =>
            (pySnakeLower r.1 ++ "_indexed", r.2.2)) r =
        pySnakeLower r.1 ++ "_percentage" := by
      intro r _
      show rsplitPre (pySnakeLower r.1 ++ "_indexed") ++ "_percentage" = _
      rw [rsplitPre_append (pySnakeLower r.1) "_indexed" "indexed".data rfl (by decide)]
    have e2 : ∀ r ∈ rows,
        ((fun p : String × String => rsplitPre p.1 ++ "_percentage") ∘
          fun r : String × String × String =>
            (pySnakeLower r.1 ++ "_avail", r.2.1)) r =
        pySnakeLower r.1 ++ "_percentage" := by
      intro r _
      show rsplitPre (pySnakeLower r.1 ++ "_avail") ++ "_percentage" = _
      rw [rsplitPre_append (pySnakeLower r.1) "_avail" "avail".data rfl (by decide)]
    rw [List.map_congr_left e1, List.map_congr_left e2]
  simp only [elasticIndexPercentages, hfa, hfi, hVA, hVI, hKeys]
  simp only [Option.some_bind, List.map_map]
  have hzipmap : ((rows.map ((fun p : String × String => (parsePyFloat p.2).getD 0) ∘
        fun r : String × String × String =>
          (pySnakeLower r.1 ++ "_indexed", r.2.2))).zip
      (rows.map ((fun p : String × String => (parsePyFloat p.2).getD 0) ∘
        fun r : String × String × String =>
          (pySnakeLower r.1 ++ "_avail", r.2.1)))) =
      rows.map (fun r =>
        ((parsePyFloat r.2.2).getD 0, (parsePyFloat r.2.1).getD 0)) :=
    List.zip_map' ..
  rw [hzipmap, List.map_map]
  have hlenP : (rows.map (fun r => pySnakeLower r.1 ++ "_percentage")).length =
      (rows.map ((fun xy : ℚ × ℚ => if xy.2 = 0 then 1 else xy.1 / xy.2) ∘
        fun r : String × String × String =>
          ((parsePyFloat r.2.2).getD 0, (parsePyFloat r.2.1).getD 0))).length := by
    simp
  rw [zip_append_left _ _ _ hlenP]
  have hzip2 : ((rows.map (fun r => pySnakeLower r.1 ++ "_percentage")).zip
      (rows.map ((fun xy : ℚ × ℚ => if xy.2 = 0 then 1 else xy.1 / xy.2) ∘
        fun r : String × String × String =>
          ((parsePyFloat r.2.2).getD 0, (parsePyFloat r.2.1).getD 0)))) =
      rows.map (fun r =>
        (pySnakeLower r.1 ++ "_percentage",
         if (parsePyFloat r.2.1).getD 0 = 0 then (1 : ℚ)
         else (parsePyFloat r.2.2).getD 0 / (parsePyFloat r.2.1).getD 0)) :=
    List.zip_map' ..
  rw [hzip2]
  rw [pyDictOf_fresh _ (by
    rw [List.map_map]
    have hco : (Prod.fst ∘ fun r : String × String × String =>
        (pySnakeLower r.1 ++ "_percentage",
         if (parsePyFloat r.2.1).getD 0 = 0 then (1 : ℚ)
         else (parsePyFloat r.2.2).getD 0 / (parsePyFloat r.2.1).getD 0)) =
        ((fun s => s ++ "_percentage") ∘ fun r : String × String × String =>
          pySnakeLower r.1) := rfl
    rw [hco, ← List.map_map]
    exact hnodP)]

/-- C10 witness: a well-named two-index table — `Ticket` with 10
available / 5 indexed and `Article` with 0 available / 0 indexed —
satisfies the amended theorem's side conditions and yields the
guarded percentages 1/2 and 1. -/
theorem C10_percentage_witness :
    elasticIndexPercentages (get_elastic_index_states
      [("Ticket", "10", "5"), ("Article", "0", "0")]) =
      some [("ticket_percentage", (1 : ℚ) / 2), ("article_percentage", 1)] := by
  have h10 : parsePyFloat "10" = some (10 : ℚ) := by
    simpa using parsePyFloat_digits "10" ['1', '0'] 10 (by decide) (by decide)
  have h5 : parsePyFloat "5" = some (5 : ℚ) := by
    simpa using parsePyFloat_digits "5" ['5'] 5 (by decide) (by decide)
  have h0 : parsePyFloat "0" = some (0 : ℚ) := by
    simpa using parsePyFloat_digits "0" ['0'] 0 (by decide) (by decide)
  have h := C10_percentage_amended [("Ticket", "10", "5"), ("Article", "0", "0")]
    (by decide) (by decide) (by decide)
  rw [h]
  have hs1 : pySnakeLower "Ticket" ++ "_percentage" = "ticket_percentage" := by decide
  have hs2 : pySnakeLower "Article" ++ "_percentage" = "article_percentage" := by decide
  simp only [List.map_cons, List.map_nil, h10, h5, h0, Option.getD_some, hs1, hs2]
  norm_num

end OtrsExporter
